import Mathlib

/-!
Verification of the sarf_backend budgeting core against its specification.

The definitions below are a shallow embedding of the Python source:
monetary values (Python `Decimal`) are rationals, record-store tables are
id-indexed partial maps or lists, and each route handler / service method
becomes a state-passing function returning an `Except` result together
with the post-state (the store mutations it performed before failing are
kept, exactly as in the source, which has no cross-step rollback).
-/

namespace Sarf

/-- Transaction type literal: expense, income or transfer
(src/app/schemas/transaction.py). -/
inductive TxnType
  | expense
  | income
  | transfer
deriving DecidableEq, Repr

/-- An account record: owner, running balance, active flag
(columns read by the handlers). -/
structure Account where
  user_id : String
  balance : ℚ
  is_active : Bool
deriving DecidableEq, Repr

/-- A category record: owner, assigned and activity amounts, hidden flag. -/
structure Category where
  user_id : String
  assigned_amount : ℚ
  activity_amount : ℚ
  is_hidden : Bool
deriving DecidableEq, Repr

/-- A stored transaction row (the fields the ledger handlers read). -/
structure Txn where
  user_id : String
  account_id : String
  category_id : Option String
  amount : ℚ
  transaction_type : TxnType
deriving DecidableEq, Repr

/-- Body of POST /transactions (schema `TransactionCreate`,
src/app/schemas/transaction.py: no constraint on `amount` beyond being a
decimal, no ownership information). -/
structure TransactionCreate where
  account_id : String
  category_id : Option String
  amount : ℚ
  transaction_type : TxnType
deriving DecidableEq, Repr

/-- Body of PATCH /transactions (schema `TransactionUpdate`): every field
optional; `none` means the field was not supplied (pydantic
`exclude_unset`), and `category_id` can also be explicitly cleared. -/
structure TransactionUpdate where
  account_id : Option String := none
  category_id : Option (Option String) := none
  amount : Option ℚ := none
  transaction_type : Option TxnType := none
deriving DecidableEq, Repr

/-- Record-store state seen by the transactions router: three id-indexed
tables. -/
structure LedgerState where
  accounts : String → Option Account
  categories : String → Option Category
  transactions : String → Option Txn

/-- Error kinds surfaced by the ledger handlers: 404 `notFound`,
400 `badRequest`, and `storeFault` for an exception raised by the store
client (e.g. `.single()` on a missing row), which FastAPI turns into a 500. -/
inductive LedgerErr
  | notFound
  | badRequest
  | storeFault
deriving DecidableEq, Repr

/-- Keyed update of the accounts table. -/
def setAccount (s : LedgerState) (i : String) (a : Account) : LedgerState :=
  { s with accounts := fun j => if j = i then some a else s.accounts j }

/-- Keyed update of the categories table. -/
def setCategory (s : LedgerState) (i : String) (c : Category) : LedgerState :=
  { s with categories := fun j => if j = i then some c else s.categories j }

/-- Keyed insert/update/delete of the transactions table. -/
def setTransaction (s : LedgerState) (i : String) (t : Option Txn) : LedgerState :=
  { s with transactions := fun j => if j = i then t else s.transactions j }

/-- Embedding of `create_transaction` (src/app/routers/transactions.py,
lines 37-72).  The store assigns the fresh row id `tid`.  Faithful to the
source: the handler performs NO ownership, existence or sign validation —
it inserts the row, then reads the referenced account balance with
`.single()` (a missing row raises, leaving the inserted transaction in
place), applies the signed delta, and, when the type is expense and a
category id is set, adds the amount to that category's activity. -/
def create_transaction (u tid : String) (td : TransactionCreate) (s : LedgerState) :
    Except LedgerErr Unit × LedgerState :=
  let txn : Txn :=
    { user_id := u, account_id := td.account_id, category_id := td.category_id,
      amount := td.amount, transaction_type := td.transaction_type }
  let s1 := setTransaction s tid (some txn)
  match s1.accounts txn.account_id with
  | none => (Except.error LedgerErr.storeFault, s1)
  | some acc =>
    let newBalance : ℚ :=
      match txn.transaction_type with
      | TxnType.expense => acc.balance - txn.amount
      | TxnType.income => acc.balance + txn.amount
      | TxnType.transfer => acc.balance
    let s2 := setAccount s1 txn.account_id { acc with balance := newBalance }
    match txn.category_id, txn.transaction_type with
    | some cid, TxnType.expense =>
      match s2.categories cid with
      | none => (Except.error LedgerErr.storeFault, s2)
      | some c =>
        (Except.ok (),
          setCategory s2 cid { c with activity_amount := c.activity_amount + txn.amount })
    | _, _ => (Except.ok (), s2)

/-- Field-wise application of a PATCH body to a stored transaction row
(the dict update performed by the store on `update`). -/
def applyPatch (txn : Txn) (p : TransactionUpdate) : Txn :=
  { txn with
    account_id := p.account_id.getD txn.account_id,
    category_id := p.category_id.getD txn.category_id,
    amount := p.amount.getD txn.amount,
    transaction_type := p.transaction_type.getD txn.transaction_type }

/-- Embedding of `update_transaction` (src/app/routers/transactions.py,
lines 90-113).  Faithful to the source: after the owner-scoped lookup it
updates ONLY the transaction row — no account balance or category
activity adjustment of any kind is performed. -/
def update_transaction (u tid : String) (p : TransactionUpdate) (s : LedgerState) :
    Except LedgerErr Unit × LedgerState :=
  match s.transactions tid with
  | none => (Except.error LedgerErr.notFound, s)
  | some txn =>
    if txn.user_id = u then
      (Except.ok (), setTransaction s tid (some (applyPatch txn p)))
    else (Except.error LedgerErr.notFound, s)

/-- Embedding of `delete_transaction` (src/app/routers/transactions.py,
lines 116-143): owner-scoped lookup, reverse signed delta on the account,
reverse activity on the category for an expense with a category, then
delete the row. -/
def delete_transaction (u tid : String) (s : LedgerState) :
    Except LedgerErr Unit × LedgerState :=
  match s.transactions tid with
  | none => (Except.error LedgerErr.notFound, s)
  | some txn =>
    if txn.user_id = u then
      match s.accounts txn.account_id with
      | none => (Except.error LedgerErr.storeFault, s)
      | some acc =>
        let newBalance : ℚ :=
          match txn.transaction_type with
          | TxnType.expense => acc.balance + txn.amount
          | TxnType.income => acc.balance - txn.amount
          | TxnType.transfer => acc.balance
        let s2 := setAccount s txn.account_id { acc with balance := newBalance }
        match txn.category_id, txn.transaction_type with
        | some cid, TxnType.expense =>
          match s2.categories cid with
          | none => (Except.error LedgerErr.storeFault, s2)
          | some c =>
            let s3 :=
              setCategory s2 cid { c with activity_amount := c.activity_amount - txn.amount }
            (Except.ok (), setTransaction s3 tid none)
        | _, _ => (Except.ok (), setTransaction s2 tid none)
    else (Except.error LedgerErr.notFound, s)

/-- The spec's signed delta for a posting: minus the amount for an
expense, plus the amount for an income, zero for a transfer (spec §4.1). -/
def specDelta (ty : TxnType) (amount : ℚ) : ℚ :=
  match ty with
  | TxnType.expense => -amount
  | TxnType.income => amount
  | TxnType.transfer => 0

/-- Post followed by void of the same row: the state after
`create_transaction` then `delete_transaction` for the same caller and id. -/
def postVoidCycle (u tid : String) (td : TransactionCreate) (s : LedgerState) :
    LedgerState :=
  (delete_transaction u tid (create_transaction u tid td s).2).2

/-- A concrete one-account, one-category store used to instantiate the
general theorems. -/
def wLedger : LedgerState :=
  { accounts := fun j => if j = "a1" then some ⟨"u1", 100, true⟩ else none
    categories := fun j => if j = "c1" then some ⟨"u1", 300, 20, false⟩ else none
    transactions := fun _ => none }

/-- Store rows visible to the budget service, as id-keyed row lists (the
service reads them with filtered selects). -/
structure BudgetState where
  accounts : List (String × Account)
  categories : List (String × Category)
deriving DecidableEq, Repr

/-- Embedding of `BudgetService.get_to_be_budgeted`
(src/app/services/budget_service.py, lines 35-40): the balances of the
caller's active accounts are summed, the assigned amounts of the caller's
non-hidden categories are summed, and the difference is returned —
recomputed from the stored rows on every call, nothing cached. -/
def get_to_be_budgeted (u : String) (s : BudgetState) : ℚ :=
  ((s.accounts.filter (fun p => p.2.user_id == u && p.2.is_active)).map
      (fun p => p.2.balance)).sum -
  ((s.categories.filter (fun p => p.2.user_id == u && !p.2.is_hidden)).map
      (fun p => p.2.assigned_amount)).sum

/-- The spec's formula for to_be_budgeted (spec §3): sum over all stored
accounts of the balance when the row is the owner's and active, minus the
sum over all stored categories of the assigned amount when the row is the
owner's and visible. -/
def spec_to_be_budgeted (u : String) (s : BudgetState) : ℚ :=
  (s.accounts.map
      (fun p => if p.2.user_id == u && p.2.is_active then p.2.balance else 0)).sum -
  (s.categories.map
      (fun p => if p.2.user_id == u && !p.2.is_hidden then
        p.2.assigned_amount else 0)).sum

/-- Error kinds raised by the move_money route: the router's 400
validations, the service's ValueError for a missing/foreign category, and
its ValueError for an insufficient source envelope. -/
inductive MoveMoneyErr
  | validationAmount
  | validationSameCategory
  | sourceNotFound
  | targetNotFound
  | insufficientFunds
deriving DecidableEq, Repr

/-- Embedding of the move_money route (src/app/routers/budget.py, lines
37-68) composed with `BudgetService.move_money`
(src/app/services/budget_service.py, lines 10-33): the router rejects a
non-positive amount and identical endpoints, the service then performs
owner-scoped single lookups of both categories, rejects when the source's
assigned amount is below the requested amount, and only then applies the
two keyed updates.  Every rejection happens before any update, so the
error cases return the store unchanged. -/
def move_money (u fromId toId : String) (amount : ℚ) (s : BudgetState) :
    Except MoveMoneyErr Unit × BudgetState :=
  if amount ≤ 0 then (Except.error MoveMoneyErr.validationAmount, s)
  else if fromId = toId then (Except.error MoveMoneyErr.validationSameCategory, s)
  else
    match s.categories.find? (fun p => p.1 == fromId && p.2.user_id == u) with
    | none => (Except.error MoveMoneyErr.sourceNotFound, s)
    | some pf =>
      match s.categories.find? (fun p => p.1 == toId && p.2.user_id == u) with
      | none => (Except.error MoveMoneyErr.targetNotFound, s)
      | some pt =>
        if pf.2.assigned_amount < amount then
          (Except.error MoveMoneyErr.insufficientFunds, s)
        else
          let cats1 := s.categories.map (fun p =>
            if p.1 == fromId then
              (p.1, { p.2 with assigned_amount := pf.2.assigned_amount - amount })
            else p)
          let cats2 := cats1.map (fun p =>
            if p.1 == toId then
              (p.1, { p.2 with assigned_amount := pt.2.assigned_amount + amount })
            else p)
          (Except.ok (), { s with categories := cats2 })

/-- A concrete budget store with distractor rows: an inactive account, a
foreign account, a hidden category and a foreign category. -/
def wBudget : BudgetState :=
  { accounts :=
      [("a1", ⟨"u1", 1000, true⟩), ("a2", ⟨"u1", 50, false⟩),
        ("a3", ⟨"u2", 77, true⟩)]
    categories :=
      [("c1", ⟨"u1", 300, 0, false⟩), ("c2", ⟨"u1", 40, 0, true⟩),
        ("c3", ⟨"u2", 9, 0, false⟩)] }

/-- Subscription frequency enum (src/app/schemas/subscription.py). -/
inductive SubscriptionFrequency
  | weekly
  | monthly
  | yearly
deriving DecidableEq, Repr

/-- Gregorian leap-year test, as Python's datetime uses it. -/
def isLeap (y : ℕ) : Bool :=
  (y % 4 == 0 && y % 100 != 0) || y % 400 == 0

/-- Number of days in month m of year y (Python calendar rules). -/
def daysInMonth (y m : ℕ) : ℕ :=
  if m = 2 then (if isLeap y then 29 else 28)
  else if m = 4 ∨ m = 6 ∨ m = 9 ∨ m = 11 then 30
  else 31

/-- A calendar date, as Python's datetime.date triple. -/
structure Date where
  year : ℕ
  month : ℕ
  day : ℕ
deriving DecidableEq, Repr

/-- The validity bounds that datetime.date enforces on construction. -/
def Date.valid (d : Date) : Prop :=
  1 ≤ d.month ∧ d.month ≤ 12 ∧ 1 ≤ d.day ∧ d.day ≤ daysInMonth d.year d.month

instance decidableDateValid (d : Date) : Decidable d.valid :=
  inferInstanceAs (Decidable
    (1 ≤ d.month ∧ d.month ≤ 12 ∧ 1 ≤ d.day ∧ d.day ≤ daysInMonth d.year d.month))

/-- The day after d (one step of date + timedelta). -/
def Date.next (d : Date) : Date :=
  if d.day < daysInMonth d.year d.month then ⟨d.year, d.month, d.day + 1⟩
  else if d.month < 12 then ⟨d.year, d.month + 1, 1⟩
  else ⟨d.year + 1, 1, 1⟩

/-- d + timedelta(days = n). -/
def Date.addDays (d : Date) (n : ℕ) : Date :=
  Date.next^[n] d

/-- The day before d (date - timedelta(days = 1)). -/
def Date.prev (d : Date) : Date :=
  if 1 < d.day then ⟨d.year, d.month, d.day - 1⟩
  else if 1 < d.month then ⟨d.year, d.month - 1, daysInMonth d.year (d.month - 1)⟩
  else ⟨d.year - 1, 12, 31⟩

/-- Embedding of `SubscriptionService.calculate_next_due_date`
(src/app/services/subscription_service.py, lines 166-192).  Weekly adds
seven days.  Monthly advances to the next month (rolling an overflowing
month 13 into January of the next year) and keeps the day when the
target month has it, falling back to the day before the first of the
following month; yearly keeps month and day in the next year, falling
back to Feb 28.  The source's try/except around date.replace is modelled
by the day-validity test of the target month, which is exactly when
replace raises ValueError. -/
def calculate_next_due_date (last : Date) (f : SubscriptionFrequency) : Date :=
  match f with
  | SubscriptionFrequency.weekly => last.addDays 7
  | SubscriptionFrequency.monthly =>
    let p : ℕ × ℕ :=
      if last.month + 1 > 12 then (last.year + 1, 1) else (last.year, last.month + 1)
    if last.day ≤ daysInMonth p.1 p.2 then ⟨p.1, p.2, last.day⟩
    else if p.2 = 12 then Date.prev ⟨p.1 + 1, 1, 1⟩
    else Date.prev ⟨p.1, p.2 + 1, 1⟩
  | SubscriptionFrequency.yearly =>
    if last.day ≤ daysInMonth (last.year + 1) last.month then
      ⟨last.year + 1, last.month, last.day⟩
    else ⟨last.year + 1, 2, 28⟩

/-- Parse of the stored frequency string
(SubscriptionFrequency(sub["frequency"]) in the source); an unknown
string raises ValueError there, modelled as none. -/
def parseFrequency (s : String) : Option SubscriptionFrequency :=
  if s = "weekly" then some SubscriptionFrequency.weekly
  else if s = "monthly" then some SubscriptionFrequency.monthly
  else if s = "yearly" then some SubscriptionFrequency.yearly
  else none

/-- A subscription row (the fields the processor reads). -/
structure Subscription where
  id : String
  user_id : String
  payee_name : String
  estimated_amount : ℚ
  next_due_date : Date
  frequency : String
  category_id : Option String
  account_id : Option String
  is_active : Bool
deriving DecidableEq, Repr

/-- A transaction row as inserted by the processor. -/
structure SubTxn where
  user_id : String
  account_id : String
  category_id : Option String
  payee_name : String
  amount : ℚ
  transaction_type : TxnType
  transaction_date : Date
  is_cleared : Bool
deriving DecidableEq, Repr

/-- Store state seen by the subscription processor: its view of the
account balances and category activity amounts it reads and writes, the
transactions it appends, and the subscription rows it advances. -/
structure SubsState where
  balances : String → Option ℚ
  activities : String → Option ℚ
  transactions : List SubTxn
  subscriptions : String → Option Subscription

/-- Outcome status of processing one due subscription. -/
inductive ProcStatus
  | processed
  | skipped
  | error
deriving DecidableEq, Repr

/-- Per-subscription outcome record (subscription id, status, reason,
and the advanced due date on success). -/
structure ProcResult where
  subscription_id : String
  status : ProcStatus
  reason : Option String
  next_due_date : Option Date
deriving DecidableEq, Repr

/-- Embedding of `SubscriptionService._process_single_subscription`
(src/app/services/subscription_service.py, lines 289-378).  `insertOk`
models the store's reply to the transaction insert (empty data = false).
A missing linked account id short-circuits to skipped/no_account_id
before any mutation.  Otherwise the source inserts the transaction,
silently skips the balance step when the account row is missing, adds
the amount to the category activity when one is linked and present, and
only then parses the frequency and advances next_due_date; the
ValueError an unknown frequency string raises is caught by the final
except clause, so the due date stays unadvanced while the earlier
mutations persist, exactly as in the source. -/
def process_single_subscription (sub : Subscription) (insertOk : Bool)
    (st : SubsState) : ProcResult × SubsState :=
  match sub.account_id with
  | none =>
    ({ subscription_id := sub.id, status := ProcStatus.skipped,
       reason := some "no_account_id", next_due_date := none }, st)
  | some aid =>
    let amount := sub.estimated_amount
    if insertOk then
      let txn : SubTxn :=
        { user_id := sub.user_id, account_id := aid,
          category_id := sub.category_id, payee_name := sub.payee_name,
          amount := amount, transaction_type := TxnType.expense,
          transaction_date := sub.next_due_date, is_cleared := true }
      let st1 := { st with transactions := st.transactions ++ [txn] }
      let st2 :=
        match st1.balances aid with
        | some bal =>
          { st1 with balances := fun j =>
              if j = aid then some (bal - amount) else st1.balances j }
        | none => st1
      let st3 :=
        match sub.category_id with
        | some cid =>
          match st2.activities cid with
          | some act =>
            { st2 with activities := fun j =>
                if j = cid then some (act + amount) else st2.activities j }
          | none => st2
        | none => st2
      match parseFrequency sub.frequency with
      | none =>
        ({ subscription_id := sub.id, status := ProcStatus.error,
           reason := some "invalid_frequency", next_due_date := none }, st3)
      | some f =>
        let nd := calculate_next_due_date sub.next_due_date f
        let st4 := { st3 with subscriptions := fun j =>
          if j = sub.id then
            (st3.subscriptions j).map (fun s0 => { s0 with next_due_date := nd })
          else st3.subscriptions j }
        ({ subscription_id := sub.id, status := ProcStatus.processed,
           reason := none, next_due_date := some nd }, st4)
    else
      ({ subscription_id := sub.id, status := ProcStatus.error,
         reason := some "failed_to_create_transaction", next_due_date := none }, st)

/-- Embedding of `SubscriptionService.process_due_subscriptions`
(src/app/services/subscription_service.py, lines 249-287) applied to the
already-fetched batch of due subscriptions: each item is processed in
turn, every outcome is collected, and no outcome aborts the rest.
`insertOk` gives the store's insert reply per subscription id. -/
def process_due_subscriptions (subs : List Subscription)
    (insertOk : String → Bool) (st : SubsState) :
    List ProcResult × SubsState :=
  match subs with
  | [] => ([], st)
  | sub :: rest =>
    let r := process_single_subscription sub (insertOk sub.id) st
    let rs := process_due_subscriptions rest insertOk r.2
    (r.1 :: rs.1, rs.2)

/-- A concrete monthly subscription linked to account a1. -/
def wSub : Subscription :=
  { id := "s1", user_id := "u1", payee_name := "Netflix",
    estimated_amount := 49, next_due_date := ⟨2024, 1, 31⟩,
    frequency := "monthly", category_id := none,
    account_id := some "a1", is_active := true }

/-- A concrete processor store: one account with balance 100, the one
subscription row, no categories and no transactions yet. -/
def wSubsState : SubsState :=
  { balances := fun j => if j = "a1" then some 100 else none
    activities := fun _ => none
    transactions := []
    subscriptions := fun j => if j = "s1" then some wSub else none }

/-- A transaction row as the detector reads it; the date field is the
day ordinal of transaction_date (date subtraction in the source is
exactly ordinal subtraction, and date comparison is ordinal
comparison). -/
structure DetectorTxn where
  payee_name : String
  amount : ℚ
  transaction_date : ℤ
  category_id : Option String
deriving DecidableEq, Repr

/-- Embedding of `_normalize_payee` (subscription_service.py lines
55-58): lower-case then strip. -/
def normalize_payee (p : String) : String := p.toLower.trim

/-- Grouping of the fetched transactions by normalized payee, keeping
first-seen group order and within-group order (Python dict insertion
order). -/
def groupByPayee (txns : List DetectorTxn) : List (String × List DetectorTxn) :=
  txns.foldl (fun acc t =>
    let k := normalize_payee t.payee_name
    if acc.any (fun g => g.1 == k) then
      acc.map (fun g => if g.1 == k then (g.1, g.2 ++ [t]) else g)
    else acc ++ [(k, [t])]) []

/-- Insertion into an ascending list (one step of dates.sort()). -/
def insertSortedZ (x : ℤ) : List ℤ → List ℤ
  | [] => [x]
  | y :: ys => if x ≤ y then x :: y :: ys else y :: insertSortedZ x ys

/-- Ascending sort of the date ordinals (dates.sort()). -/
def sortZ (l : List ℤ) : List ℤ := l.foldr insertSortedZ []

/-- Consecutive day gaps of the sorted date list
((dates[i] - dates[i-1]).days for i in 1..). -/
def consecutiveGaps : List ℤ → List ℚ
  | a :: b :: rest => ((b - a : ℤ) : ℚ) :: consecutiveGaps (b :: rest)
  | _ => []

/-- statistics.mean. -/
def mean (l : List ℚ) : ℚ := l.sum / l.length

/-- statistics.variance: the Bessel-corrected sample variance. -/
def sampleVariance (l : List ℚ) : ℚ :=
  ((l.map (fun x => (x - mean l) ^ 2)).sum) / ((l.length : ℚ) - 1)

/-- The guarded variance the detector uses:
statistics.variance(deltas) if len(deltas) > 1 else 0. -/
def varianceIfLong (l : List ℚ) : ℚ :=
  if 1 < l.length then sampleVariance l else 0

/-- Embedding of `SubscriptionService._determine_frequency`
(src/app/services/subscription_service.py, lines 121-146): the fixed
mean-gap bands — weekly 5-9, monthly 25-35, yearly 350-380 — with the
band-specific frequency confidence max(0, 1 - variance/k) for
k = 10, 50, 200, and (none, 0) outside every band. -/
def determine_frequency (avg : ℚ) (deltas : List ℚ) :
    Option SubscriptionFrequency × ℚ :=
  if 5 ≤ avg ∧ avg ≤ 9 then
    (some SubscriptionFrequency.weekly, max 0 (1 - varianceIfLong deltas / 10))
  else if 25 ≤ avg ∧ avg ≤ 35 then
    (some SubscriptionFrequency.monthly, max 0 (1 - varianceIfLong deltas / 50))
  else if 350 ≤ avg ∧ avg ≤ 380 then
    (some SubscriptionFrequency.yearly, max 0 (1 - varianceIfLong deltas / 200))
  else (none, 0)

/-- Embedding of `_calculate_amount_confidence` (lines 148-164):
max(0, 1 - 2 cv) with cv = stdev/mean; the square root in stdev forces
the result into ℝ. -/
noncomputable def calculate_amount_confidence (amounts : List ℚ) : ℝ :=
  if amounts.length < 2 then 0.5
  else if mean amounts = 0 then 0
  else max 0 (1 - 2 * (Real.sqrt (sampleVariance amounts) / (mean amounts : ℝ)))

/-- Round-half-to-even to an integer, as Python's round(). -/
def roundHalfEven {α : Type} [LinearOrderedField α] [FloorRing α] (x : α) : ℤ :=
  if x - Int.floor x < 1 / 2 then Int.floor x
  else if 1 / 2 < x - Int.floor x then Int.floor x + 1
  else if Int.floor x % 2 = 0 then Int.floor x else Int.floor x + 1

/-- round(x, 2). -/
def round2 {α : Type} [LinearOrderedField α] [FloorRing α] (x : α) : α :=
  (roundHalfEven (100 * x) : ℤ) / 100

/-- A detected subscription candidate (schema DetectedSubscription,
src/app/schemas/subscription.py). -/
structure DetectedSubscription where
  payee_name : String
  estimated_amount : ℚ
  frequency : SubscriptionFrequency
  confidence : ℝ
  transaction_count : ℕ
  last_transaction_date : ℤ
  suggested_category_id : Option String

/-- The defaultdict(int) counts of category ids in group order. -/
def categoryCounts (txns : List DetectorTxn) : List (String × ℕ) :=
  txns.foldl (fun acc t =>
    match t.category_id with
    | some cid =>
      if acc.any (fun g => g.1 == cid) then
        acc.map (fun g => if g.1 == cid then (g.1, g.2 + 1) else g)
      else acc ++ [(cid, 1)]
    | none => acc) []

/-- Python's max(counts, key=counts.get): the first key attaining the
maximal count in insertion order. -/
def maxByCount : List (String × ℕ) → Option String
  | [] => none
  | x :: xs =>
    some ((xs.foldl (fun best g => if best.2 < g.2 then g else best) x).1)

/-- Embedding of `SubscriptionService._analyze_pattern` (lines 60-119):
gaps of the sorted dates, frequency classification of the mean gap,
amount confidence, overall confidence 0.6f + 0.4a rounded to two
decimals, estimated amount as the rounded mean, payee in the original
casing of the first transaction, latest date, and the plurality-vote
category. -/
noncomputable def analyze_pattern (payee : String) (txns : List DetectorTxn) :
    Option DetectedSubscription :=
  match txns with
  | [] => none
  | t0 :: rest =>
    if (t0 :: rest).length < 2 then none
    else
      let amounts := (t0 :: rest).map (fun t => t.amount)
      let dates := sortZ ((t0 :: rest).map (fun t => t.transaction_date))
      let deltas := consecutiveGaps dates
      if deltas.isEmpty then none
      else
        let avg := mean deltas
        match determine_frequency avg deltas with
        | (none, _) => none
        | (some f, fconf) =>
          let aconf := calculate_amount_confidence amounts
          let conf : ℝ := (fconf : ℝ) * 0.6 + aconf * 0.4
          some
            { payee_name := t0.payee_name
              estimated_amount := round2 (mean amounts)
              frequency := f
              confidence := round2 conf
              transaction_count := (t0 :: rest).length
              last_transaction_date := dates.foldl max t0.transaction_date
              suggested_category_id := maxByCount (categoryCounts (t0 :: rest)) }

/-- Stable insertion for the descending-confidence sort: a new element
goes after every already-placed element of greater or equal confidence
(list.sort(key=confidence, reverse=True) is stable). -/
noncomputable def insertByConfDesc (x : DetectedSubscription) :
    List DetectedSubscription → List DetectedSubscription
  | [] => [x]
  | y :: ys =>
    if y.confidence < x.confidence then x :: y :: ys
    else y :: insertByConfDesc x ys

/-- detected.sort(key=confidence, reverse=True). -/
noncomputable def sortByConfDesc (l : List DetectedSubscription) :
    List DetectedSubscription :=
  l.foldl (fun acc x => insertByConfDesc x acc) []

/-- The consecutive day-gaps of a payee group, in date order (the
deltas list of _analyze_pattern). -/
def groupGaps (txns : List DetectorTxn) : List ℚ :=
  consecutiveGaps (sortZ (txns.map (fun t => t.transaction_date)))

/-- The amounts of a payee group in fetch order. -/
def groupAmounts (txns : List DetectorTxn) : List ℚ :=
  txns.map (fun t => t.amount)

/-- The body of the detection loop: skip a group of size < 2, analyze
the group, and append the result when its (rounded) confidence is at
least 0.5. -/
noncomputable def detectStep (acc : List DetectedSubscription)
    (g : String × List DetectorTxn) : List DetectedSubscription :=
  if g.2.length < 2 then acc
  else
    match analyze_pattern g.1 g.2 with
    | some r => if 0.5 ≤ r.confidence then acc ++ [r] else acc
    | none => acc

/-- Embedding of `SubscriptionService.detect_subscriptions`
(src/app/services/subscription_service.py, lines 12-53) applied to the
fetched expense transactions: group by normalized payee, run the
detection loop, and sort by descending confidence. -/
noncomputable def detect_subscriptions (txns : List DetectorTxn) :
    List DetectedSubscription :=
  sortByConfDesc ((groupByPayee txns).foldl detectStep [])

end Sarf

namespace Sarf

/-- C1: for every posted transaction whose referenced account exists (and
whose referenced category exists when an expense names one), `post`
applies the signed delta — minus the amount for an expense, plus for an
income, zero for a transfer — to that account's balance, and a category's
`activity_amount` grows by the amount exactly when the type is expense and
that category's id is set on the transaction; income and transfer postings
change no category's `activity_amount`. -/
theorem create_transaction_applies_specDelta (u tid : String)
    (td : TransactionCreate) (s : LedgerState) (acc : Account)
    (hacc : s.accounts td.account_id = some acc)
    (hcat : ∀ cid, td.category_id = some cid →
      td.transaction_type = TxnType.expense → (s.categories cid).isSome) :
    (create_transaction u tid td s).1 = Except.ok () ∧
    (create_transaction u tid td s).2.accounts td.account_id =
      some { acc with balance := acc.balance + specDelta td.transaction_type td.amount } ∧
    (∀ cid c, s.categories cid = some c →
      (create_transaction u tid td s).2.categories cid =
        some { c with activity_amount := c.activity_amount +
          (if td.category_id = some cid ∧ td.transaction_type = TxnType.expense then
            td.amount else 0) }) := by
  rcases td with ⟨aid, catid, amt, ty⟩
  rcases catid with _ | cid
  · cases ty <;>
      refine ⟨?_, ?_, ?_⟩ <;>
        simp_all [create_transaction, setTransaction, setAccount, setCategory,
          specDelta] <;>
        first
          | ring_nf
          | (intro cid c hc; simp [hc])
  · cases ty
    · have hsome := hcat cid rfl rfl
      rcases hcs : s.categories cid with _ | c0
      · rw [hcs] at hsome; simp at hsome
      · refine ⟨?_, ?_, ?_⟩
        · simp_all [create_transaction, setTransaction, setAccount, setCategory]
        · simp_all [create_transaction, setTransaction, setAccount, setCategory,
            specDelta] <;> ring_nf
        · intro cid2 c2 hc2
          by_cases heq : cid2 = cid
          · subst heq
            rw [hcs] at hc2
            injection hc2 with h
            subst h
            simp [create_transaction, setTransaction, setAccount, setCategory,
              hacc, hcs]
          · simp [create_transaction, setTransaction, setAccount, setCategory,
              hacc, hcs, heq, hc2, Ne.symm heq]
    · refine ⟨?_, ?_, ?_⟩ <;>
        simp_all [create_transaction, setTransaction, setAccount, setCategory,
          specDelta] <;>
        first
          | ring_nf
          | (intro cid2 c2 hc2; simp [hc2])
    · refine ⟨?_, ?_, ?_⟩ <;>
        simp_all [create_transaction, setTransaction, setAccount, setCategory,
          specDelta] <;>
        first
          | ring_nf
          | (intro cid2 c2 hc2; simp [hc2])

/-- Witness for C1 at a concrete input: an expense of 7 with a category,
posted against the one-account store. -/
theorem create_transaction_applies_specDelta_witness :
    (wLedger.accounts "a1" = some ⟨"u1", 100, true⟩) ∧
    ((create_transaction "u1" "t1"
        ⟨"a1", some "c1", 7, TxnType.expense⟩ wLedger).1 = Except.ok () ∧
      (create_transaction "u1" "t1"
        ⟨"a1", some "c1", 7, TxnType.expense⟩ wLedger).2.accounts "a1" =
        some { (⟨"u1", 100, true⟩ : Account) with
          balance := (100 : ℚ) + specDelta TxnType.expense 7 } ∧
      (∀ cid c, wLedger.categories cid = some c →
        (create_transaction "u1" "t1"
          ⟨"a1", some "c1", 7, TxnType.expense⟩ wLedger).2.categories cid =
          some { c with activity_amount := c.activity_amount +
            (if (some "c1" : Option String) = some cid ∧
                TxnType.expense = TxnType.expense then (7 : ℚ) else 0) })) :=
  ⟨rfl, create_transaction_applies_specDelta "u1" "t1"
    ⟨"a1", some "c1", 7, TxnType.expense⟩ wLedger ⟨"u1", 100, true⟩ rfl
    (by intro cid h _; injection h with h1; subst h1; rfl)⟩

/-- C2 (code divergence): amending a posted expense from 50 to 80 leaves
the account balance at 50 — `update_transaction` only patches the stored
row and never reverses or reapplies any ledger effect — whereas the
as-if-reposted balance demanded by the claim would be 20. -/
theorem update_transaction_leaves_balance_unchanged :
    ((update_transaction "u1" "t1" { amount := some 80 }
        (create_transaction "u1" "t1"
          ⟨"a1", none, 50, TxnType.expense⟩ wLedger).2).1 = Except.ok ()) ∧
    ((update_transaction "u1" "t1" { amount := some 80 }
        (create_transaction "u1" "t1"
          ⟨"a1", none, 50, TxnType.expense⟩ wLedger).2).2.transactions "t1").map
        Txn.amount = some 80 ∧
    ((update_transaction "u1" "t1" { amount := some 80 }
        (create_transaction "u1" "t1"
          ⟨"a1", none, 50, TxnType.expense⟩ wLedger).2).2.accounts "a1").map
        Account.balance = some 50 ∧
    ((wLedger.accounts "a1").map Account.balance = some 100 ∧
      (100 : ℚ) + specDelta TxnType.expense 80 = 20 ∧ (50 : ℚ) ≠ 20) := by
  refine ⟨rfl, rfl, ?_, rfl, ?_, ?_⟩
  · show some ((100 : ℚ) - 50) = some 50
    exact congrArg some (by norm_num)
  · norm_num [specDelta]
  · norm_num

/-- C4 (code divergence): `create_transaction` performs no ownership,
existence or sign validation.  A caller who does not own account a1 posts
an expense of 50 against it and the call succeeds, records the row and
debits the foreign account; and an expense with the non-positive amount
-5 is accepted and credits the account by 5 instead of being rejected
with a validation kind. -/
theorem create_transaction_skips_validation :
    ((create_transaction "intruder" "t1"
        ⟨"a1", none, 50, TxnType.expense⟩ wLedger).1 = Except.ok () ∧
      ((create_transaction "intruder" "t1"
        ⟨"a1", none, 50, TxnType.expense⟩ wLedger).2.accounts "a1").map
        Account.balance = some 50 ∧
      ((create_transaction "intruder" "t1"
        ⟨"a1", none, 50, TxnType.expense⟩ wLedger).2.transactions "t1").isSome ∧
      (wLedger.accounts "a1").map Account.user_id = some "u1" ∧
      "intruder" ≠ "u1") ∧
    ((create_transaction "u1" "t2"
        ⟨"a1", none, -5, TxnType.expense⟩ wLedger).1 = Except.ok () ∧
      ((create_transaction "u1" "t2"
        ⟨"a1", none, -5, TxnType.expense⟩ wLedger).2.accounts "a1").map
        Account.balance = some 105 ∧
      ¬(0 : ℚ) < -5) := by
  refine ⟨⟨rfl, ?_, rfl, rfl, by decide⟩, ⟨rfl, ?_, by norm_num⟩⟩
  · show some ((100 : ℚ) - 50) = some 50
    exact congrArg some (by norm_num)
  · show some ((100 : ℚ) - -5) = some 105
    exact congrArg some (by norm_num)

/-- C3: posting any transaction whose referenced account (and referenced
category, for an expense that names one) exists, under a fresh row id,
and then voiding it restores the entire store — in particular the account
balance and the category activity — exactly, and iterating the post/void
cycle any number of times is drift-free. -/
theorem postVoidCycle_restores_state (u tid : String) (td : TransactionCreate)
    (s : LedgerState)
    (hacc : (s.accounts td.account_id).isSome)
    (hcat : ∀ cid, td.category_id = some cid →
      td.transaction_type = TxnType.expense → (s.categories cid).isSome)
    (htid : s.transactions tid = none) :
    postVoidCycle u tid td s = s ∧
      ∀ n : ℕ, (postVoidCycle u tid td)^[n] s = s := by
  obtain ⟨acc, hac⟩ := Option.isSome_iff_exists.mp hacc
  have hmain : postVoidCycle u tid td s = s := by
    rcases td with ⟨aid, catid, amt, ty⟩
    obtain ⟨accs, cats, txns⟩ := s
    simp only at hac hcat htid
    rcases catid with _ | cid
    · cases ty <;>
        simp_all [postVoidCycle, create_transaction, delete_transaction,
          setTransaction, setAccount, setCategory] <;>
        refine ⟨funext fun j => ?_, funext fun j => ?_⟩ <;>
        by_cases hj : j = aid <;>
        by_cases hj2 : j = tid <;>
        simp_all <;>
        ring_nf
    · have hsome := hcat cid rfl
      cases ty
      · obtain ⟨c0, hcs⟩ := Option.isSome_iff_exists.mp (hsome rfl)
        simp_all [postVoidCycle, create_transaction, delete_transaction,
          setTransaction, setAccount, setCategory]
        refine ⟨funext fun j => ?_, funext fun j => ?_, funext fun j => ?_⟩ <;>
        by_cases hj : j = aid <;>
        by_cases hjc : j = cid <;>
        by_cases hj2 : j = tid <;>
        simp_all <;>
        ring_nf
      · simp_all [postVoidCycle, create_transaction, delete_transaction,
          setTransaction, setAccount, setCategory] <;>
        refine ⟨funext fun j => ?_, funext fun j => ?_⟩ <;>
        by_cases hj : j = aid <;>
        by_cases hj2 : j = tid <;>
        simp_all <;>
        ring_nf
      · simp_all [postVoidCycle, create_transaction, delete_transaction,
          setTransaction, setAccount, setCategory] <;>
        refine ⟨funext fun j => ?_, funext fun j => ?_⟩ <;>
        by_cases hj : j = aid <;>
        by_cases hj2 : j = tid <;>
        simp_all <;>
        ring_nf
  exact ⟨hmain, fun n => Function.iterate_fixed hmain n⟩

/-- Witness for C3 at a concrete input: an expense of 7 with a category,
cycled on the one-account one-category store. -/
theorem postVoidCycle_restores_state_witness :
    ((wLedger.accounts "a1").isSome ∧
      (∀ cid, (some "c1" : Option String) = some cid →
        TxnType.expense = TxnType.expense → (wLedger.categories cid).isSome) ∧
      wLedger.transactions "t1" = none) ∧
    (postVoidCycle "u1" "t1" ⟨"a1", some "c1", 7, TxnType.expense⟩ wLedger =
        wLedger ∧
      ∀ n : ℕ, (postVoidCycle "u1" "t1"
        ⟨"a1", some "c1", 7, TxnType.expense⟩)^[n] wLedger = wLedger) :=
  ⟨⟨rfl, by intro cid h _; injection h with h1; subst h1; rfl, rfl⟩,
    postVoidCycle_restores_state "u1" "t1" ⟨"a1", some "c1", 7, TxnType.expense⟩
      wLedger rfl (by intro cid h _; injection h with h1; subst h1; rfl) rfl⟩

/-- Filter-then-sum equals the sum of guarded terms over the whole list. -/
theorem sum_filter_map_eq_sum_map_ite {α : Type} (p : α → Bool) (f : α → ℚ)
    (l : List α) :
    ((l.filter p).map f).sum = (l.map fun x => if p x then f x else 0).sum := by
  induction l with
  | nil => rfl
  | cons x xs ih =>
    by_cases h : p x <;> simp [List.filter_cons, h, ih]

/-- C5: for every owner, the budget summary's to_be_budgeted equals the
sum of balances over the owner's active accounts minus the sum of
assigned amounts over the owner's non-hidden categories, as a pure
function of the stored rows; at the concrete store holding an account
with balance 1000 and a category with 300 assigned (plus inactive,
hidden and foreign distractor rows) it evaluates to 700. -/
theorem get_to_be_budgeted_eq_spec :
    (∀ u s, get_to_be_budgeted u s = spec_to_be_budgeted u s) ∧
    get_to_be_budgeted "u1" wBudget = 700 := by
  refine ⟨fun u s => ?_, ?_⟩
  · unfold get_to_be_budgeted spec_to_be_budgeted
    rw [sum_filter_map_eq_sum_map_ite, sum_filter_map_eq_sum_map_ite]
  · simp [get_to_be_budgeted, wBudget]
    norm_num

/-- The two successive keyed updates performed by move_money fuse into a
single traversal when the two keys differ. -/
theorem move_money_updates_fuse (fromId toId : String) (hne : fromId ≠ toId)
    (a b : ℚ) (l : List (String × Category)) :
    (l.map (fun p =>
        if p.1 == fromId then (p.1, { p.2 with assigned_amount := a }) else p)).map
      (fun p =>
        if p.1 == toId then (p.1, { p.2 with assigned_amount := b }) else p) =
    l.map (fun p =>
      if p.1 = fromId then (p.1, { p.2 with assigned_amount := a })
      else if p.1 = toId then (p.1, { p.2 with assigned_amount := b })
      else p) := by
  rw [List.map_map]
  congr 1
  funext p
  by_cases h1 : p.1 = fromId
  · simp [Function.comp, h1, hne]
  · by_cases h2 : p.1 = toId <;> simp [Function.comp, h1, h2, hne.symm]

/-- C6: move_money succeeds exactly when the amount is positive, the two
categories differ, both are found among the caller's categories, and the
source's assigned amount covers the requested amount; a non-positive
amount or identical endpoints fail with the corresponding validation
kind and leave the store untouched; an uncovered amount fails with the
insufficient-funds kind and leaves the store untouched; and a successful
move decrements the source's assigned amount and increments the
target's by the same amount, conserving their sum. -/
theorem move_money_spec (u fromId toId : String) (amount : ℚ) (s : BudgetState) :
    ((move_money u fromId toId amount s).1 = Except.ok () ↔
      0 < amount ∧ fromId ≠ toId ∧
        ∃ pf pt,
          s.categories.find? (fun p => p.1 == fromId && p.2.user_id == u) = some pf ∧
          s.categories.find? (fun p => p.1 == toId && p.2.user_id == u) = some pt ∧
          amount ≤ pf.2.assigned_amount) ∧
    (amount ≤ 0 →
      move_money u fromId toId amount s =
        (Except.error MoveMoneyErr.validationAmount, s)) ∧
    (0 < amount → fromId = toId →
      move_money u fromId toId amount s =
        (Except.error MoveMoneyErr.validationSameCategory, s)) ∧
    (∀ pf pt,
      s.categories.find? (fun p => p.1 == fromId && p.2.user_id == u) = some pf →
      s.categories.find? (fun p => p.1 == toId && p.2.user_id == u) = some pt →
      0 < amount → fromId ≠ toId → pf.2.assigned_amount < amount →
      move_money u fromId toId amount s =
        (Except.error MoveMoneyErr.insufficientFunds, s)) ∧
    (∀ pf pt,
      s.categories.find? (fun p => p.1 == fromId && p.2.user_id == u) = some pf →
      s.categories.find? (fun p => p.1 == toId && p.2.user_id == u) = some pt →
      0 < amount → fromId ≠ toId → amount ≤ pf.2.assigned_amount →
      (move_money u fromId toId amount s).2.categories =
        s.categories.map (fun p =>
          if p.1 = fromId then
            (p.1, { p.2 with assigned_amount := pf.2.assigned_amount - amount })
          else if p.1 = toId then
            (p.1, { p.2 with assigned_amount := pt.2.assigned_amount + amount })
          else p) ∧
      (pf.2.assigned_amount - amount) + (pt.2.assigned_amount + amount) =
        pf.2.assigned_amount + pt.2.assigned_amount) := by
  refine ⟨⟨?_, ?_⟩, ?_, ?_, ?_, ?_⟩
  · intro hok
    by_cases h1 : amount ≤ 0
    · simp [move_money, h1] at hok
    by_cases h2 : fromId = toId
    · simp [move_money, h1, h2] at hok
    rcases hf : s.categories.find? (fun p => p.1 == fromId && p.2.user_id == u)
      with _ | pf
    · simp [move_money, h1, h2, hf] at hok
    rcases ht : s.categories.find? (fun p => p.1 == toId && p.2.user_id == u)
      with _ | pt
    · simp [move_money, h1, h2, hf, ht] at hok
    by_cases h3 : pf.2.assigned_amount < amount
    · simp [move_money, h1, h2, hf, ht, h3] at hok
    · exact ⟨not_le.mp h1, h2, pf, pt, hf, ht, not_lt.mp h3⟩
  · rintro ⟨hpos, hne, pf, pt, hf, ht, hle⟩
    simp [move_money, not_le.mpr hpos, hne, hf, ht, not_lt.mpr hle]
  · intro h1
    simp [move_money, h1]
  · intro hpos h2
    simp [move_money, not_le.mpr hpos, h2]
  · intro pf pt hf ht hpos hne h3
    simp [move_money, not_le.mpr hpos, hne, hf, ht, h3]
  · intro pf pt hf ht hpos hne hle
    refine ⟨?_, by ring⟩
    simp only [move_money, if_neg (not_le.mpr hpos), if_neg hne, hf, ht,
      if_neg (not_lt.mpr hle)]
    exact move_money_updates_fuse fromId toId hne _ _ s.categories

/-- Witness for C6 at a concrete input: moving 100 from the category with
300 assigned to the one with 40 assigned. -/
theorem move_money_spec_witness :
    (wBudget.categories.find? (fun p => p.1 == "c1" && p.2.user_id == "u1") =
        some ("c1", ⟨"u1", 300, 0, false⟩) ∧
      wBudget.categories.find? (fun p => p.1 == "c2" && p.2.user_id == "u1") =
        some ("c2", ⟨"u1", 40, 0, true⟩) ∧
      (0 : ℚ) < 100 ∧ "c1" ≠ "c2" ∧
      (100 : ℚ) ≤ ("c1", (⟨"u1", 300, 0, false⟩ : Category)).2.assigned_amount) ∧
    ((move_money "u1" "c1" "c2" 100 wBudget).2.categories =
        wBudget.categories.map (fun p =>
          if p.1 = "c1" then
            (p.1, { p.2 with assigned_amount :=
              ("c1", (⟨"u1", 300, 0, false⟩ : Category)).2.assigned_amount - 100 })
          else if p.1 = "c2" then
            (p.1, { p.2 with assigned_amount :=
              ("c2", (⟨"u1", 40, 0, true⟩ : Category)).2.assigned_amount + 100 })
          else p) ∧
      (("c1", (⟨"u1", 300, 0, false⟩ : Category)).2.assigned_amount - 100) +
          (("c2", (⟨"u1", 40, 0, true⟩ : Category)).2.assigned_amount + 100) =
        ("c1", (⟨"u1", 300, 0, false⟩ : Category)).2.assigned_amount +
          ("c2", (⟨"u1", 40, 0, true⟩ : Category)).2.assigned_amount) :=
  ⟨⟨rfl, rfl, by norm_num, by decide, by norm_num⟩,
    (move_money_spec "u1" "c1" "c2" 100 wBudget).2.2.2.2
      ("c1", ⟨"u1", 300, 0, false⟩) ("c2", ⟨"u1", 40, 0, true⟩)
      rfl rfl (by norm_num) (by decide) (by norm_num)⟩

/-- Every month has at least 28 days. -/
theorem daysInMonth_ge_28 (y m : ℕ) : 28 ≤ daysInMonth y m := by
  unfold daysInMonth
  split_ifs <;> omega

/-- The length of a month other than February does not depend on the year. -/
theorem daysInMonth_congr_year (y y' m : ℕ) (h : m ≠ 2) :
    daysInMonth y m = daysInMonth y' m := by
  unfold daysInMonth
  simp [h]

/-- December has 31 days. -/
theorem daysInMonth_twelve (y : ℕ) : daysInMonth y 12 = 31 := by
  norm_num [daysInMonth]

/-- January has 31 days. -/
theorem daysInMonth_one (y : ℕ) : daysInMonth y 1 = 31 := by
  norm_num [daysInMonth]

/-- C8: for every valid date, the next-due-date computation adds seven
days for a weekly frequency; moves to the same day of the next month,
clamped to the last valid day of that month, for a monthly frequency;
and moves to the same month and day of the next year, clamped to Feb 28
exactly for Feb 29 before a non-leap year, for a yearly frequency; with
the three concrete leap-year examples. -/
theorem calculate_next_due_date_spec (d : Date) (hv : d.valid) :
    (calculate_next_due_date d SubscriptionFrequency.weekly = d.addDays 7) ∧
    (calculate_next_due_date d SubscriptionFrequency.monthly =
      if d.month = 12 then
        ⟨d.year + 1, 1, min d.day (daysInMonth (d.year + 1) 1)⟩
      else
        ⟨d.year, d.month + 1, min d.day (daysInMonth d.year (d.month + 1))⟩) ∧
    (calculate_next_due_date d SubscriptionFrequency.yearly =
      if d.month = 2 ∧ d.day = 29 ∧ isLeap (d.year + 1) = false then
        ⟨d.year + 1, 2, 28⟩
      else ⟨d.year + 1, d.month, d.day⟩) ∧
    (calculate_next_due_date ⟨2024, 1, 31⟩ SubscriptionFrequency.monthly =
      ⟨2024, 2, 29⟩) ∧
    (calculate_next_due_date ⟨2023, 1, 31⟩ SubscriptionFrequency.monthly =
      ⟨2023, 2, 28⟩) ∧
    (calculate_next_due_date ⟨2024, 2, 29⟩ SubscriptionFrequency.yearly =
      ⟨2025, 2, 28⟩) := by
  obtain ⟨hm1, hm12, hd1, hdm⟩ := hv
  refine ⟨rfl, ?_, ?_, by decide, by decide, by decide⟩
  · by_cases hm : d.month = 12
    · have h31 : d.day ≤ 31 := by
        have := hdm
        rw [hm, daysInMonth_twelve] at this
        exact this
      simp only [calculate_next_due_date, hm]
      norm_num
      rw [daysInMonth_one, if_pos h31, min_eq_left h31]
    · have hgt : ¬ (d.month + 1 > 12) := by omega
      simp only [calculate_next_due_date, if_neg hgt, if_neg hm]
      by_cases hday : d.day ≤ daysInMonth d.year (d.month + 1)
      · rw [if_pos hday, min_eq_left hday]
      · have hmin : min d.day (daysInMonth d.year (d.month + 1)) =
            daysInMonth d.year (d.month + 1) :=
          min_eq_right (by omega)
        rw [if_neg hday, hmin]
        by_cases h12 : d.month + 1 = 12
        · rw [if_pos h12, h12]
          simp [Date.prev, daysInMonth_twelve]
        · rw [if_neg h12]
          have hlt : 1 < d.month + 1 + 1 := by omega
          simp [Date.prev, hlt]
  · by_cases hm2 : d.month = 2
    · by_cases hd29 : d.day = 29
      · by_cases hl : isLeap (d.year + 1)
        · have h29 : daysInMonth (d.year + 1) 2 = 29 := by
            simp [daysInMonth, hl]
          simp only [calculate_next_due_date, hm2, hd29, h29]
          norm_num [hl]
        · have h28 : daysInMonth (d.year + 1) 2 = 28 := by
            simp [daysInMonth, hl]
          simp only [calculate_next_due_date, hm2, hd29, h28]
          norm_num [hl]
      · have hd2' := hdm
        rw [hm2] at hd2'
        have hle : d.day ≤ 28 := by
          by_cases hly : isLeap d.year
          · have h29 : daysInMonth d.year 2 = 29 := by simp [daysInMonth, hly]
            rw [h29] at hd2'
            omega
          · have h28 : daysInMonth d.year 2 = 28 := by simp [daysInMonth, hly]
            rw [h28] at hd2'
            omega
        have hok : d.day ≤ daysInMonth (d.year + 1) 2 :=
          le_trans hle (by have := daysInMonth_ge_28 (d.year + 1) 2; omega)
        simp only [calculate_next_due_date, hm2, if_pos hok]
        simp [hd29]
    · have heq : daysInMonth (d.year + 1) d.month = daysInMonth d.year d.month :=
        daysInMonth_congr_year _ _ _ hm2
      simp only [calculate_next_due_date, heq, if_pos hdm]
      simp [hm2]

/-- Witness for C8 at the concrete valid date 2024-01-31. -/
theorem calculate_next_due_date_spec_witness :
    (Date.valid ⟨2024, 1, 31⟩) ∧
    ((calculate_next_due_date ⟨2024, 1, 31⟩ SubscriptionFrequency.weekly =
        Date.addDays ⟨2024, 1, 31⟩ 7) ∧
      (calculate_next_due_date ⟨2024, 1, 31⟩ SubscriptionFrequency.monthly =
        if (1 : ℕ) = 12 then
          ⟨2024 + 1, 1, min 31 (daysInMonth (2024 + 1) 1)⟩
        else ⟨2024, 1 + 1, min 31 (daysInMonth 2024 (1 + 1))⟩) ∧
      (calculate_next_due_date ⟨2024, 1, 31⟩ SubscriptionFrequency.yearly =
        if (1 : ℕ) = 2 ∧ (31 : ℕ) = 29 ∧ isLeap (2024 + 1) = false then
          ⟨2024 + 1, 2, 28⟩
        else ⟨2024 + 1, 1, 31⟩) ∧
      (calculate_next_due_date ⟨2024, 1, 31⟩ SubscriptionFrequency.monthly =
        ⟨2024, 2, 29⟩) ∧
      (calculate_next_due_date ⟨2023, 1, 31⟩ SubscriptionFrequency.monthly =
        ⟨2023, 2, 28⟩) ∧
      (calculate_next_due_date ⟨2024, 2, 29⟩ SubscriptionFrequency.yearly =
        ⟨2025, 2, 28⟩)) :=
  ⟨by decide, calculate_next_due_date_spec ⟨2024, 1, 31⟩ (by decide)⟩

/-- C9: a due subscription with no linked account is skipped with reason
no_account_id and the store is left completely unchanged; on success
(insert accepted, linked account present, frequency well-formed) exactly
one expense transaction is appended, the linked account balance drops by
the estimated amount, and the stored next_due_date advances by exactly
one period; a rejected insert yields an error carrying
failed_to_create_transaction with the store unchanged; an unparsable
frequency yields an error with a reason and the subscription rows — in
particular next_due_date — unadvanced; and a batch always produces one
outcome per due subscription, so no failure aborts the rest. -/
theorem process_single_subscription_spec (sub : Subscription) (ok : Bool)
    (st : SubsState) :
    (sub.account_id = none →
      process_single_subscription sub ok st =
        ({ subscription_id := sub.id, status := ProcStatus.skipped,
           reason := some "no_account_id", next_due_date := none }, st)) ∧
    (∀ aid bal f, sub.account_id = some aid → ok = true →
      st.balances aid = some bal → parseFrequency sub.frequency = some f →
      (process_single_subscription sub ok st).1.status = ProcStatus.processed ∧
      (process_single_subscription sub ok st).2.transactions =
        st.transactions ++
          [{ user_id := sub.user_id, account_id := aid,
             category_id := sub.category_id, payee_name := sub.payee_name,
             amount := sub.estimated_amount, transaction_type := TxnType.expense,
             transaction_date := sub.next_due_date, is_cleared := true }] ∧
      (process_single_subscription sub ok st).2.balances aid =
        some (bal - sub.estimated_amount) ∧
      (process_single_subscription sub ok st).2.subscriptions sub.id =
        (st.subscriptions sub.id).map (fun s0 =>
          { s0 with next_due_date :=
            calculate_next_due_date sub.next_due_date f })) ∧
    (∀ aid, sub.account_id = some aid → ok = false →
      process_single_subscription sub ok st =
        ({ subscription_id := sub.id, status := ProcStatus.error,
           reason := some "failed_to_create_transaction", next_due_date := none },
          st)) ∧
    (∀ aid, sub.account_id = some aid → ok = true →
      parseFrequency sub.frequency = none →
      (process_single_subscription sub ok st).1.status = ProcStatus.error ∧
      ((process_single_subscription sub ok st).1.reason).isSome ∧
      (process_single_subscription sub ok st).2.subscriptions =
        st.subscriptions) ∧
    (∀ (batch : List Subscription) (oks : String → Bool) (st0 : SubsState),
      (process_due_subscriptions batch oks st0).1.length = batch.length) := by
  refine ⟨?_, ?_, ?_, ?_, ?_⟩
  · intro h
    simp [process_single_subscription, h]
  · intro aid bal f haid hok hbal hf
    subst hok
    rcases hcid : sub.category_id with _ | cid
    · refine ⟨?_, ?_, ?_, ?_⟩ <;>
        simp [process_single_subscription, haid, hbal, hf, hcid]
    · rcases hact : st.activities cid with _ | act <;>
        refine ⟨?_, ?_, ?_, ?_⟩ <;>
          simp [process_single_subscription, haid, hbal, hf, hcid, hact]
  · intro aid haid hok
    subst hok
    simp [process_single_subscription, haid]
  · intro aid haid hok hf
    subst hok
    rcases hbal : st.balances aid with _ | bal <;>
      rcases hcid : sub.category_id with _ | cid
    · refine ⟨?_, ?_, ?_⟩ <;>
        simp [process_single_subscription, haid, hbal, hf, hcid]
    · rcases hact : st.activities cid with _ | act <;>
        refine ⟨?_, ?_, ?_⟩ <;>
          simp [process_single_subscription, haid, hbal, hf, hcid, hact]
    · refine ⟨?_, ?_, ?_⟩ <;>
        simp [process_single_subscription, haid, hbal, hf, hcid]
    · rcases hact : st.activities cid with _ | act <;>
        refine ⟨?_, ?_, ?_⟩ <;>
          simp [process_single_subscription, haid, hbal, hf, hcid, hact]
  · intro batch oks st0
    induction batch generalizing st0 with
    | nil => rfl
    | cons sub0 rest ih => simp [process_due_subscriptions, ih]

/-- Witness for C9 at a concrete input: the monthly Netflix subscription
processed successfully against the one-account store. -/
theorem process_single_subscription_spec_witness :
    (wSub.account_id = some "a1" ∧ true = true ∧
      wSubsState.balances "a1" = some 100 ∧
      parseFrequency wSub.frequency = some SubscriptionFrequency.monthly) ∧
    ((process_single_subscription wSub true wSubsState).1.status =
        ProcStatus.processed ∧
      (process_single_subscription wSub true wSubsState).2.transactions =
        wSubsState.transactions ++
          [{ user_id := wSub.user_id, account_id := "a1",
             category_id := wSub.category_id, payee_name := wSub.payee_name,
             amount := wSub.estimated_amount, transaction_type := TxnType.expense,
             transaction_date := wSub.next_due_date, is_cleared := true }] ∧
      (process_single_subscription wSub true wSubsState).2.balances "a1" =
        some ((100 : ℚ) - wSub.estimated_amount) ∧
      (process_single_subscription wSub true wSubsState).2.subscriptions
          wSub.id =
        (wSubsState.subscriptions wSub.id).map (fun s0 =>
          { s0 with
            next_due_date := calculate_next_due_date wSub.next_due_date SubscriptionFrequency.monthly })) :=
  ⟨⟨rfl, rfl, rfl, rfl⟩,
    (process_single_subscription_spec wSub true wSubsState).2.1
      "a1" 100 SubscriptionFrequency.monthly rfl rfl rfl rfl⟩

/-- Inserting into a sorted list adds one to the length. -/
theorem insertSortedZ_length (x : ℤ) (l : List ℤ) :
    (insertSortedZ x l).length = l.length + 1 := by
  induction l with
  | nil => rfl
  | cons y ys ih =>
    unfold insertSortedZ
    split_ifs <;> simp [ih]

/-- Sorting preserves the length. -/
theorem sortZ_length (l : List ℤ) : (sortZ l).length = l.length := by
  induction l with
  | nil => rfl
  | cons a tl ih =>
    show (insertSortedZ a (sortZ tl)).length = tl.length + 1
    rw [insertSortedZ_length, ih]

/-- The gap list of a date list is one shorter. -/
theorem consecutiveGaps_length (l : List ℤ) :
    (consecutiveGaps l).length = l.length - 1 := by
  induction l with
  | nil => rfl
  | cons a tl ih =>
    cases tl with
    | nil => rfl
    | cons b rest =>
      show (consecutiveGaps (a :: b :: rest)).length = rest.length + 1
      rw [consecutiveGaps]
      simp only [List.length_cons]
      rw [ih]
      simp

/-- Membership through the stable descending insertion. -/
theorem mem_insertByConfDesc (x a : DetectedSubscription)
    (l : List DetectedSubscription) :
    a ∈ insertByConfDesc x l ↔ a = x ∨ a ∈ l := by
  induction l with
  | nil => simp [insertByConfDesc]
  | cons y ys ih =>
    unfold insertByConfDesc
    split_ifs with h
    · simp
    · simp only [List.mem_cons, ih]
      tauto

/-- The stable descending insertion preserves descending order. -/
theorem sorted_insertByConfDesc (x : DetectedSubscription)
    (l : List DetectedSubscription)
    (h : l.Sorted (fun a b => b.confidence ≤ a.confidence)) :
    (insertByConfDesc x l).Sorted (fun a b => b.confidence ≤ a.confidence) := by
  induction l with
  | nil => simp [insertByConfDesc]
  | cons y ys ih =>
    rw [List.sorted_cons] at h
    unfold insertByConfDesc
    split_ifs with hlt
    · rw [List.sorted_cons]
      refine ⟨?_, ?_⟩
      · intro b hb
        rcases List.mem_cons.mp hb with hb | hb
        · rw [hb]
          exact le_of_lt hlt
        · exact le_trans (h.1 b hb) (le_of_lt hlt)
      · rw [List.sorted_cons]
        exact h
    · rw [List.sorted_cons]
      refine ⟨?_, ih h.2⟩
      intro b hb
      rcases (mem_insertByConfDesc x b ys).mp hb with hb | hb
      · rw [hb]
        exact not_lt.mp hlt
      · exact h.1 b hb

/-- The descending insertion fold keeps a sorted accumulator sorted. -/
theorem sorted_foldl_insertByConfDesc (l : List DetectedSubscription) :
    ∀ acc : List DetectedSubscription,
      acc.Sorted (fun a b => b.confidence ≤ a.confidence) →
      (l.foldl (fun acc x => insertByConfDesc x acc) acc).Sorted
        (fun a b => b.confidence ≤ a.confidence) := by
  induction l with
  | nil => intro acc hacc; exact hacc
  | cons a tl ih =>
    intro acc hacc
    exact ih _ (sorted_insertByConfDesc a acc hacc)

/-- The descending sort is a permutation as far as membership goes. -/
theorem mem_foldl_insertByConfDesc (l : List DetectedSubscription) :
    ∀ (acc : List DetectedSubscription) (a : DetectedSubscription),
      (a ∈ l.foldl (fun acc x => insertByConfDesc x acc) acc ↔
        a ∈ acc ∨ a ∈ l) := by
  induction l with
  | nil => intro acc a; simp
  | cons b tl ih =>
    intro acc a
    simp only [List.foldl_cons, List.mem_cons]
    rw [ih, mem_insertByConfDesc]
    tauto

/-- Everything the detection loop accumulates beyond its initial
accumulator has confidence at least 0.5. -/
theorem mem_detect_foldl (groups : List (String × List DetectorTxn)) :
    ∀ (acc : List DetectedSubscription) (r : DetectedSubscription),
      r ∈ groups.foldl detectStep acc → r ∈ acc ∨ (0.5 : ℝ) ≤ r.confidence := by
  induction groups with
  | nil => intro acc r h; exact Or.inl h
  | cons g tl ih =>
    intro acc r h
    rw [List.foldl_cons] at h
    rcases ih _ r h with h2 | h2
    · unfold detectStep at h2
      by_cases hlen : g.2.length < 2
      · rw [if_pos hlen] at h2
        exact Or.inl h2
      · rw [if_neg hlen] at h2
        rcases han : analyze_pattern g.1 g.2 with _ | r0
        · rw [han] at h2
          exact Or.inl h2
        · rw [han] at h2
          dsimp only at h2
          by_cases hc : (0.5 : ℝ) ≤ r0.confidence
          · rw [if_pos hc] at h2
            rcases List.mem_append.mp h2 with h3 | h3
            · exact Or.inl h3
            · right
              rw [List.mem_singleton.mp h3]
              exact hc
          · rw [if_neg hc] at h2
            exact Or.inl h2
    · exact Or.inr h2

/-- C7: for every payee group of at least two expense transactions the
analyzer classifies the group from the mean consecutive day-gap —
weekly on [5, 9], monthly on [25, 35], yearly on [350, 380], discarded
outside every band — and reports as confidence the two-decimal rounding
of 0.6 times the band confidence max(0, 1 - variance/k) (k = 10, 50,
200 respectively) plus 0.4 times the amount confidence; and the
detector's output contains only results with confidence at least 0.5,
sorted by descending confidence. -/
theorem detector_spec :
    (∀ (payee : String) (t0 : DetectorTxn) (rest : List DetectorTxn) (avg : ℚ),
      1 ≤ rest.length →
      avg = mean (groupGaps (t0 :: rest)) →
      ((5 ≤ avg ∧ avg ≤ 9 →
          ∃ r, analyze_pattern payee (t0 :: rest) = some r ∧
            r.frequency = SubscriptionFrequency.weekly ∧
            r.confidence = round2
              (((max 0 (1 - varianceIfLong (groupGaps (t0 :: rest)) / 10) :
                  ℚ) : ℝ) * 0.6 +
                calculate_amount_confidence (groupAmounts (t0 :: rest)) * 0.4)) ∧
        (25 ≤ avg ∧ avg ≤ 35 →
          ∃ r, analyze_pattern payee (t0 :: rest) = some r ∧
            r.frequency = SubscriptionFrequency.monthly ∧
            r.confidence = round2
              (((max 0 (1 - varianceIfLong (groupGaps (t0 :: rest)) / 50) :
                  ℚ) : ℝ) * 0.6 +
                calculate_amount_confidence (groupAmounts (t0 :: rest)) * 0.4)) ∧
        (350 ≤ avg ∧ avg ≤ 380 →
          ∃ r, analyze_pattern payee (t0 :: rest) = some r ∧
            r.frequency = SubscriptionFrequency.yearly ∧
            r.confidence = round2
              (((max 0 (1 - varianceIfLong (groupGaps (t0 :: rest)) / 200) :
                  ℚ) : ℝ) * 0.6 +
                calculate_amount_confidence (groupAmounts (t0 :: rest)) * 0.4)) ∧
        (¬(5 ≤ avg ∧ avg ≤ 9) → ¬(25 ≤ avg ∧ avg ≤ 35) →
          ¬(350 ≤ avg ∧ avg ≤ 380) →
          analyze_pattern payee (t0 :: rest) = none))) ∧
    (∀ (txns : List DetectorTxn) (r : DetectedSubscription),
      r ∈ detect_subscriptions txns → (0.5 : ℝ) ≤ r.confidence) ∧
    (∀ txns : List DetectorTxn,
      (detect_subscriptions txns).Sorted
        (fun a b => b.confidence ≤ a.confidence)) := by
  refine ⟨?_, ?_, ?_⟩
  · intro payee t0 rest avg hlen havg
    subst havg
    have hlen2 : ¬ ((t0 :: rest).length < 2) := by
      simp only [List.length_cons]
      omega
    have hglen : (groupGaps (t0 :: rest)).length = rest.length := by
      unfold groupGaps
      rw [consecutiveGaps_length, sortZ_length, List.length_map]
      simp
    have hne : (groupGaps (t0 :: rest)).isEmpty = false := by
      rcases hg : groupGaps (t0 :: rest) with _ | ⟨x, xs⟩
      · rw [hg] at hglen
        simp at hglen
        omega
      · rfl
    have hred : ∀ fr : Option SubscriptionFrequency × ℚ,
        determine_frequency (mean (groupGaps (t0 :: rest)))
          (groupGaps (t0 :: rest)) = fr →
        analyze_pattern payee (t0 :: rest) =
          (match fr with
          | (none, _) => none
          | (some f, fconf) =>
            some
              { payee_name := t0.payee_name
                estimated_amount := round2 (mean (groupAmounts (t0 :: rest)))
                frequency := f
                confidence := round2 ((fconf : ℝ) * 0.6 +
                  calculate_amount_confidence (groupAmounts (t0 :: rest)) * 0.4)
                transaction_count := (t0 :: rest).length
                last_transaction_date :=
                  (sortZ ((t0 :: rest).map
                    (fun t => t.transaction_date))).foldl max t0.transaction_date
                suggested_category_id :=
                  maxByCount (categoryCounts (t0 :: rest)) }) := by
      intro fr hfr
      simp only [analyze_pattern]
      rw [if_neg hlen2]
      unfold groupGaps at hne hfr
      unfold groupAmounts
      simp only [hne, Bool.false_eq_true, if_false, hfr]
    refine ⟨?_, ?_, ?_, ?_⟩
    · intro hband
      have hfr : determine_frequency (mean (groupGaps (t0 :: rest)))
          (groupGaps (t0 :: rest)) =
          (some SubscriptionFrequency.weekly,
            max 0 (1 - varianceIfLong (groupGaps (t0 :: rest)) / 10)) := by
        unfold determine_frequency
        rw [if_pos hband]
      have key := hred _ hfr
      dsimp only at key
      exact ⟨_, key, rfl, rfl⟩
    · intro hband
      have hnot1 : ¬(5 ≤ mean (groupGaps (t0 :: rest)) ∧
          mean (groupGaps (t0 :: rest)) ≤ 9) := by
        rintro ⟨_, h9⟩
        rcases hband with ⟨h25, _⟩
        linarith
      have hfr : determine_frequency (mean (groupGaps (t0 :: rest)))
          (groupGaps (t0 :: rest)) =
          (some SubscriptionFrequency.monthly,
            max 0 (1 - varianceIfLong (groupGaps (t0 :: rest)) / 50)) := by
        unfold determine_frequency
        rw [if_neg hnot1, if_pos hband]
      have key := hred _ hfr
      dsimp only at key
      exact ⟨_, key, rfl, rfl⟩
    · intro hband
      have hnot1 : ¬(5 ≤ mean (groupGaps (t0 :: rest)) ∧
          mean (groupGaps (t0 :: rest)) ≤ 9) := by
        rintro ⟨_, h9⟩
        rcases hband with ⟨h350, _⟩
        linarith
      have hnot2 : ¬(25 ≤ mean (groupGaps (t0 :: rest)) ∧
          mean (groupGaps (t0 :: rest)) ≤ 35) := by
        rintro ⟨_, h35⟩
        rcases hband with ⟨h350, _⟩
        linarith
      have hfr : determine_frequency (mean (groupGaps (t0 :: rest)))
          (groupGaps (t0 :: rest)) =
          (some SubscriptionFrequency.yearly,
            max 0 (1 - varianceIfLong (groupGaps (t0 :: rest)) / 200)) := by
        unfold determine_frequency
        rw [if_neg hnot1, if_neg hnot2, if_pos hband]
      have key := hred _ hfr
      dsimp only at key
      exact ⟨_, key, rfl, rfl⟩
    · intro hnot1 hnot2 hnot3
      have hfr : determine_frequency (mean (groupGaps (t0 :: rest)))
          (groupGaps (t0 :: rest)) = (none, 0) := by
        unfold determine_frequency
        rw [if_neg hnot1, if_neg hnot2, if_neg hnot3]
      have key := hred _ hfr
      dsimp only at key
      exact key
  · intro txns r hr
    unfold detect_subscriptions sortByConfDesc at hr
    have hmem := (mem_foldl_insertByConfDesc _ [] r).mp hr
    simp only [List.not_mem_nil, false_or] at hmem
    rcases mem_detect_foldl (groupByPayee txns) [] r hmem with h | h
    · simp at h
    · exact h
  · intro txns
    unfold detect_subscriptions sortByConfDesc
    exact sorted_foldl_insertByConfDesc _ [] (by simp)

/-- Witness for C7 at a concrete group: three Netflix expenses of 49 on
day ordinals 0, 30 and 61 (gaps 30 and 31, mean 30.5). -/
theorem detector_spec_witness :
    ((1 : ℕ) ≤ ([⟨"Netflix", 49, 30, none⟩, ⟨"Netflix", 49, 61, none⟩] :
        List DetectorTxn).length ∧
      (61 : ℚ) / 2 = mean (groupGaps ((⟨"Netflix", 49, 0, none⟩ : DetectorTxn) ::
        [⟨"Netflix", 49, 30, none⟩, ⟨"Netflix", 49, 61, none⟩])) ∧
      (25 ≤ (61 : ℚ) / 2 ∧ (61 : ℚ) / 2 ≤ 35)) ∧
    (∃ r, analyze_pattern "netflix" ((⟨"Netflix", 49, 0, none⟩ : DetectorTxn) ::
        [⟨"Netflix", 49, 30, none⟩, ⟨"Netflix", 49, 61, none⟩]) = some r ∧
      r.frequency = SubscriptionFrequency.monthly ∧
      r.confidence = round2
        (((max 0 (1 - varianceIfLong (groupGaps
            ((⟨"Netflix", 49, 0, none⟩ : DetectorTxn) ::
              [⟨"Netflix", 49, 30, none⟩, ⟨"Netflix", 49, 61, none⟩])) / 50) :
            ℚ) : ℝ) * 0.6 +
          calculate_amount_confidence (groupAmounts
            ((⟨"Netflix", 49, 0, none⟩ : DetectorTxn) ::
              [⟨"Netflix", 49, 30, none⟩, ⟨"Netflix", 49, 61, none⟩])) * 0.4)) :=
  ⟨⟨by decide,
      by norm_num [mean, groupGaps, consecutiveGaps, sortZ, insertSortedZ],
      by norm_num⟩,
    ((detector_spec.1 "netflix" ⟨"Netflix", 49, 0, none⟩
        [⟨"Netflix", 49, 30, none⟩, ⟨"Netflix", 49, 61, none⟩] ((61 : ℚ) / 2)
        (by decide)
        (by norm_num [mean, groupGaps, consecutiveGaps, sortZ,
          insertSortedZ])).2.1 (by norm_num))⟩

end Sarf
